import Mathlib

/-!
Verification development for the pushpin realtime relay.

Shallow embedding of the relay's sync core:
* `Lib0` — the lib0 variable-length integer codec used on the wire
  (`writeVarUint`, `readVarUint`, `writeVarUint8Array`, ...).
* `YModel` — the external Yjs CRDT collaborator, modelled per the spec's
  glossary: a document is the finite set of atomic operations it has
  absorbed, update application is set union (commutative and idempotent),
  and an encoded state/update blob is the sorted list of its atoms.
* `RedisPersistence` — `src/app/lib/yjs-redis-persistence.ts`
  (`getState`, `storeUpdate`, `compact`).
* `YjsRedis` — the Redis sync helper module (`loadDoc`, `saveUpdate`,
  `compactDoc`, `processMessage`, awareness encoding).
* `PeerHandler` / `DocHandler` — the two WebSocket-over-HTTP handler
  variants' OPEN and SyncStep1 behaviour.
* `YjsRoute` — the collaborative-room route's CLOSE handling.
* `Bridge` — the subscription bridge's refcounted topic state machine and
  its upstream forwarding body.
* `SocketCodec` — the chat socket's frame codec
  (`parseWebSocketEvents`, `encodeWebSocketEvent`), embedded with explicit
  JavaScript string/number semantics (NaN, `substring` clamping and
  argument swapping, `indexOf`, `parseInt`).
-/

/-- Opaque update blob: a list of atoms (bytes at the wire level, atomic
CRDT operations at the merge level). -/
abbrev Blob := List ℕ

namespace Lib0

/-- Body of the `while num > 127` loop of lib0 `encoding.writeVarUint`.
The fuel argument only bounds the iteration count (any fuel at least the
value suffices) and keeps the definition kernel-reducible. -/
def writeVarUintGo (fuel : ℕ) (n : ℕ) : List ℕ :=
  match fuel with
  | 0 => [n]
  | fuel + 1 => if 127 < n then (128 + n % 128) :: writeVarUintGo fuel (n / 128) else [n]

/-- lib0 `encoding.writeVarUint`: seven data bits per byte, high bit set on
all but the final byte. -/
def writeVarUint (n : ℕ) : List ℕ :=
  writeVarUintGo n n

/-- Accumulator loop of lib0 `decoding.readVarUint`. -/
def readVarUintAux (acc mult : ℕ) : List ℕ → Option (ℕ × List ℕ)
  | [] => none
  | b :: rest =>
    if b < 128 then some (acc + b % 128 * mult, rest)
    else readVarUintAux (acc + b % 128 * mult) (mult * 128) rest

/-- lib0 `decoding.readVarUint`; `none` models the thrown decoding error on
truncated input. -/
def readVarUint (bs : List ℕ) : Option (ℕ × List ℕ) :=
  readVarUintAux 0 1 bs

/-- lib0 `encoding.writeVarUint8Array`: length then raw bytes. -/
def writeVarUint8Array (b : List ℕ) : List ℕ :=
  writeVarUint b.length ++ b

/-- lib0 `decoding.readVarUint8Array`; `none` models the out-of-range view
error when fewer than `len` bytes remain. -/
def readVarUint8Array (bs : List ℕ) : Option (List ℕ × List ℕ) :=
  match readVarUint bs with
  | none => none
  | some (len, rest) =>
    if len ≤ rest.length then some (rest.take len, rest.drop len) else none

/-- lib0 `encoding.writeVarString` on the UTF-8 bytes of the string. -/
def writeVarString (utf8 : List ℕ) : List ℕ :=
  writeVarUint8Array utf8

end Lib0

namespace YModel

/-- Content of a `Y.Doc`, modelled as the finite set of atomic operations it
has absorbed (CRDT merge is commutative and idempotent per the spec). -/
abbrev DocSet := Finset ℕ

/-- `Y.applyUpdate doc update`: absorb the update's atoms. -/
def applyUpdate (d : DocSet) (b : Blob) : DocSet :=
  d ∪ b.toFinset

/-- `Y.encodeStateAsUpdate doc`: one blob carrying exactly the doc's atoms,
canonically (in ascending order). -/
def encodeStateAsUpdate (d : DocSet) : Blob :=
  (List.range (d.sup id + 1)).filter (fun a => a ∈ d)

/-- `Y.encodeStateVector doc`: a summary blob of what the doc holds; in this
model a state vector carries the same atom set as the doc. -/
def encodeStateVector (d : DocSet) : Blob :=
  (List.range (d.sup id + 1)).filter (fun a => a ∈ d)

/-- `Y.encodeStateAsUpdate doc sv`: the diff of the doc against a peer's
state vector. -/
def encodeStateDiff (d : DocSet) (sv : Blob) : Blob :=
  encodeStateAsUpdate (d \ sv.toFinset)

end YModel

namespace RedisPersistence

/-- Redis keys owned by `createRedisPersistence` for one room:
`⟪keyPrefix⟫:⟪docName⟫:snapshot` (optional blob) and
`⟪keyPrefix⟫:⟪docName⟫:updates` (list, appended at the tail by RPUSH).
`compactions` is a ghost counter of `compact` runs, used only to state
"exactly one compaction". -/
structure Store where
  snapshot : Option Blob
  updates : List Blob
  compactions : ℕ
deriving DecidableEq

/-- Fresh room: neither key exists. -/
def empty : Store := ⟨none, [], 0⟩

/-- Document built by `getState`/`compact`: apply the snapshot if present,
then every pending update in list (append) order. -/
def loadSet (s : Store) : YModel.DocSet :=
  s.updates.foldl YModel.applyUpdate
    (match s.snapshot with
     | some b => YModel.applyUpdate ∅ b
     | none => ∅)

/-- `getState` of `createRedisPersistence`: merge snapshot plus pending
updates; return `null` when the merged doc is empty
(`doc.store.clients.size === 0`). -/
def getState (s : Store) : Option Blob :=
  if loadSet s = ∅ then none else some (YModel.encodeStateAsUpdate (loadSet s))

/-- `compact`: merge snapshot plus all pending updates, write the merged
state as the new snapshot and delete the updates list in one atomic batch. -/
def compact (s : Store) : Store :=
  { snapshot := some (YModel.encodeStateAsUpdate (loadSet s))
    updates := []
    compactions := s.compactions + 1 }

/-- `storeUpdate`: RPUSH the update, then if the threshold is enabled and the
list length reached it (`count >= compactionThreshold`), compact before
returning. -/
def storeUpdate (threshold : ℕ) (s : Store) (u : Blob) : Store :=
  let s1 : Store := { s with updates := s.updates ++ [u] }
  if 0 < threshold ∧ threshold ≤ s1.updates.length then compact s1 else s1

end RedisPersistence

namespace YjsRedis

/-- Message type tags from y-protocols. -/
def messageSync : ℕ := 0

def messageAwareness : ℕ := 1

/-- Sync sub-type tags from y-protocols/sync. -/
def messageSyncStep1 : ℕ := 0

def messageSyncStep2 : ℕ := 1

def messageSyncUpdate : ℕ := 2

/-- Redis keys owned by the Yjs Redis helper for one room:
`yjs:doc:⟪room⟫` (base document state) and `yjs:updates:⟪room⟫` (pending
update list). `compactions` is a ghost counter of `compactDoc` runs. -/
structure RoomState where
  doc : Option Blob
  updates : List Blob
  compactions : ℕ
deriving DecidableEq

/-- Fresh room: neither key exists. -/
def emptyRoom : RoomState := ⟨none, [], 0⟩

/-- Document built by `loadDoc`: apply the base state if present, then every
pending update in list order. -/
def loadDocSet (s : RoomState) : YModel.DocSet :=
  s.updates.foldl YModel.applyUpdate
    (match s.doc with
     | some b => YModel.applyUpdate ∅ b
     | none => ∅)

/-- `compactDoc`: load the merged document, write it as the new base state
and delete the updates list in one MULTI transaction. -/
def compactDoc (s : RoomState) : RoomState :=
  { doc := some (YModel.encodeStateAsUpdate (loadDocSet s))
    updates := []
    compactions := s.compactions + 1 }

/-- `saveUpdate`: RPUSH the update, then compact when the list length
strictly exceeds 100 (`if (len > 100)`). -/
def saveUpdate (s : RoomState) (u : Blob) : RoomState :=
  let s1 : RoomState := { s with updates := s.updates ++ [u] }
  if 100 < s1.updates.length then compactDoc s1 else s1

/-- `encodeSyncStep1 doc`: outer sync tag, step-1 tag, the doc's state
vector. -/
def encodeSyncStep1 (doc : YModel.DocSet) : List ℕ :=
  Lib0.writeVarUint messageSync ++ Lib0.writeVarUint messageSyncStep1 ++
    Lib0.writeVarUint8Array (YModel.encodeStateVector doc)

/-- `encodeSyncStep2 doc stateVector?`: with a state vector, the diff of the
doc against it (y-protocols `writeSyncStep2`); without, the doc's full
state. -/
def encodeSyncStep2 (doc : YModel.DocSet) (sv : Option Blob) : List ℕ :=
  Lib0.writeVarUint messageSync ++ Lib0.writeVarUint messageSyncStep2 ++
    (match sv with
     | some v => Lib0.writeVarUint8Array (YModel.encodeStateDiff doc v)
     | none => Lib0.writeVarUint8Array (YModel.encodeStateAsUpdate doc))

/-- UTF-8 bytes of `JSON.stringify(null)`, i.e. the string `null`. -/
def nullJsonBytes : List ℕ := [110, 117, 108, 108]

/-- `encodeAwarenessUserDisconnected clientId lastClock`: an awareness
message whose payload declares exactly one change, for the given client,
with clock `lastClock + 1` and the JSON `null` state marker. -/
def encodeAwarenessUserDisconnected (clientId lastClock : ℕ) : List ℕ :=
  Lib0.writeVarUint messageAwareness ++
    Lib0.writeVarUint8Array
      (Lib0.writeVarUint 1 ++ Lib0.writeVarUint clientId ++
        Lib0.writeVarUint (lastClock + 1) ++ Lib0.writeVarString nullJsonBytes)

/-- Result record of `processMessage`. -/
structure PMResult where
  response : Option (List ℕ)
  broadcast : Option (List ℕ)
  awarenessClientId : Option ℕ
deriving DecidableEq

/-- `processMessage room message doc`: classify the inbound bytes.
SyncStep1 produces a diff response; SyncStep2/SyncUpdate applies the update
to the doc, persists it via `saveUpdate` and asks for the original message
bytes to be broadcast; awareness messages are broadcast unpersisted, with a
client id extracted only when the payload declares exactly one change.
Unknown tags produce an empty result (a logged warning); `none` models a
thrown decoding error, caught by the caller. -/
def processMessage (room : RoomState) (message : List ℕ) (doc : YModel.DocSet) :
    Option (RoomState × YModel.DocSet × PMResult) :=
  match Lib0.readVarUint message with
  | none => none
  | some (messageType, r1) =>
    if messageType = messageSync then
      match Lib0.readVarUint r1 with
      | none => none
      | some (syncMessageType, r2) =>
        if syncMessageType = messageSyncStep1 then
          match Lib0.readVarUint8Array r2 with
          | none => none
          | some (stateVector, _) =>
            some (room, doc, ⟨some (encodeSyncStep2 doc (some stateVector)), none, none⟩)
        else if syncMessageType = messageSyncStep2 ∨ syncMessageType = messageSyncUpdate then
          match Lib0.readVarUint8Array r2 with
          | none => none
          | some (update, _) =>
            some (saveUpdate room update, YModel.applyUpdate doc update,
              ⟨none, some message, none⟩)
        else
          some (room, doc, ⟨none, none, none⟩)
    else if messageType = messageAwareness then
      match Lib0.readVarUint8Array r1 with
      | none => none
      | some (awarenessUpdate, _) =>
        match Lib0.readVarUint awarenessUpdate with
        | none => none
        | some (len, r3) =>
          if len = 1 then
            match Lib0.readVarUint r3 with
            | none => none
            | some (clientId, _) => some (room, doc, ⟨none, some message, some clientId⟩)
          else
            some (room, doc, ⟨none, some message, none⟩)
    else
      some (room, doc, ⟨none, none, none⟩)

end YjsRedis

/-- Observable actions a WebSocket-over-HTTP handler takes on the held
connection, in order. -/
inductive WsAction where
  | accept : WsAction
  | subscribe (channel : String) : WsAction
  | sendBinary (message : List ℕ) : WsAction
deriving DecidableEq

namespace PeerHandler

/-- Local `encodeSyncStep1` of the peer-based `makeYjsHandler`
(yjs-redis-persistence.ts): request state from the peer. -/
def encodeSyncStep1 (stateVector : Blob) : List ℕ :=
  Lib0.writeVarUint YjsRedis.messageSync ++ Lib0.writeVarUint YjsRedis.messageSyncStep1 ++
    Lib0.writeVarUint8Array stateVector

/-- Local `encodeSyncStep2` of the peer-based `makeYjsHandler`: send state
to the peer. -/
def encodeSyncStep2 (update : Blob) : List ℕ :=
  Lib0.writeVarUint YjsRedis.messageSync ++ Lib0.writeVarUint YjsRedis.messageSyncStep2 ++
    Lib0.writeVarUint8Array update

/-- The module constant `emptyStateVector`, i.e.
`Y.encodeStateVector(new Y.Doc())`: the state vector of an empty doc. -/
def emptyStateVector : Blob :=
  YModel.encodeStateVector ∅

/-- Opening block of the peer-based `makeYjsHandler`: accept, subscribe the
connection to the room channel, unconditionally send SyncStep1 with the
empty state vector, then send the persisted state as SyncStep2 when the
provider is configured and returns a non-empty state. -/
def openActions (persistence : Option RedisPersistence.Store) (docName : String) :
    List WsAction :=
  [WsAction.accept, WsAction.subscribe ("yjs:" ++ docName),
    WsAction.sendBinary (encodeSyncStep1 emptyStateVector)] ++
    (match persistence with
     | none => []
     | some s =>
       match RedisPersistence.getState s with
       | some state =>
         if 0 < state.length then [WsAction.sendBinary (encodeSyncStep2 state)] else []
       | none => [])

/-- SyncStep1 branch of the peer-based `makeYjsHandler`: ignore the peer's
state vector; send the full persisted state as SyncStep2 when the provider
is configured and returns a non-empty state, otherwise send nothing. -/
def step1Actions (persistence : Option RedisPersistence.Store) : List WsAction :=
  match persistence with
  | none => []
  | some s =>
    match RedisPersistence.getState s with
    | some state =>
      if 0 < state.length then [WsAction.sendBinary (encodeSyncStep2 state)] else []
    | none => []

end PeerHandler

namespace DocHandler

/-- Content `bindState` loads into the fresh `Y.Doc` of the Y.Doc-based
`makeYjsHandler` (yjs-ws-handler.ts): `none` when no provider is
configured, otherwise the provider's persisted doc content. -/
def boundDoc (persistence : Option YModel.DocSet) : YModel.DocSet :=
  persistence.getD ∅

/-- Opening block of the Y.Doc-based `makeYjsHandler`: accept, subscribe,
send SyncStep1 carrying the loaded doc's state vector
(`syncProtocol.writeSyncStep1(encoder, doc)`), then send the full state as
SyncStep2 when a provider is configured and the loaded doc is non-empty. -/
def openActions (persistence : Option YModel.DocSet) (docName : String) : List WsAction :=
  [WsAction.accept, WsAction.subscribe ("yjs:" ++ docName),
    WsAction.sendBinary
      (Lib0.writeVarUint YjsRedis.messageSync ++ Lib0.writeVarUint YjsRedis.messageSyncStep1 ++
        Lib0.writeVarUint8Array (YModel.encodeStateVector (boundDoc persistence)))] ++
    (if persistence.isSome ∧ boundDoc persistence ≠ ∅ then
      [WsAction.sendBinary
        (Lib0.writeVarUint YjsRedis.messageSync ++ Lib0.writeVarUint YjsRedis.messageSyncStep2 ++
          Lib0.writeVarUint8Array (YModel.encodeStateAsUpdate (boundDoc persistence)))]
    else [])

/-- SyncStep1 branch of the Y.Doc-based `makeYjsHandler`: build the diff
response with `syncProtocol.writeSyncStep2(encoder, doc, clientStateVector)`
and send it only when its byte length exceeds 1. -/
def step1Actions (persistence : Option YModel.DocSet) (clientStateVector : Blob) :
    List WsAction :=
  let response :=
    Lib0.writeVarUint YjsRedis.messageSync ++ Lib0.writeVarUint YjsRedis.messageSyncStep2 ++
      Lib0.writeVarUint8Array (YModel.encodeStateDiff (boundDoc persistence) clientStateVector)
  if 1 < response.length then [WsAction.sendBinary response] else []

end DocHandler

namespace YjsRoute

/-- JavaScript truthiness of the recovered `connData.awarenessClientId`
(`undefined` and `0` are falsy). -/
def truthyId : Option ℕ → Bool
  | none => false
  | some n => n ≠ 0

/-- CLOSE handling of the collaborative-room route: after unregistering the
connection (which recovers `stored`, the client id attributed to it, if
any), broadcast an awareness departure message with hardcoded clock 0 when
`if (connData.awarenessClientId)` holds. -/
def closeBroadcast (stored : Option ℕ) : Option (List ℕ) :=
  if truthyId stored then
    some (YjsRedis.encodeAwarenessUserDisconnected (stored.getD 0) 0)
  else
    none

end YjsRoute

namespace Bridge

/-- State of the subscription bridge. `counts` models `subscriberCounts`
(a missing key reads as 0 via `|| 0`) and `active` models membership in
`activeSubscriptions`. `openStreams` and `cancels` are ghost counters: the
number of live upstream S2 read streams per topic and the number of
`controller.abort()` calls per topic. -/
structure BState where
  counts : String → ℤ
  active : String → Bool
  openStreams : String → ℕ
  cancels : String → ℕ

/-- Initial bridge state: both maps empty. -/
def init : BState :=
  ⟨fun _ => 0, fun _ => false, fun _ => 0, fun _ => 0⟩

/-- `subscribeToS2Stream` (synchronous part): increment the subscriber
count; if a subscription is already active for the topic, stop, otherwise
install an abort controller and open the upstream stream. -/
def subscribeToS2Stream (s : BState) (topic : String) : BState :=
  let s1 : BState :=
    { s with counts := fun x => if x = topic then s.counts topic + 1 else s.counts x }
  if s.active topic then s1
  else
    { s1 with
      active := fun x => if x = topic then true else s.active x
      openStreams := fun x => if x = topic then s.openStreams topic + 1 else s.openStreams x }

/-- `unsubscribeFromS2Stream`: an unsubscribe with no subscribers is a
logged warning and no state change; otherwise decrement the count, and on
the transition to 0 abort the controller (when present) and drop both map
entries. -/
def unsubscribeFromS2Stream (s : BState) (topic : String) : BState :=
  if s.counts topic ≤ 0 then s
  else
    let n := s.counts topic - 1
    let s1 : BState :=
      { s with counts := fun x => if x = topic then n else s.counts x }
    if n = 0 then
      if s.active topic then
        { counts := fun x => if x = topic then 0 else s.counts x
          active := fun x => if x = topic then false else s.active x
          openStreams := fun x => if x = topic then s.openStreams topic - 1 else s.openStreams x
          cancels := fun x => if x = topic then s.cancels topic + 1 else s.cancels x }
      else s1
    else s1

/-- Subscribe/unsubscribe events delivered by the Pushpin stats socket
(`sub` with or without `unavailable: true`). -/
inductive BEvent where
  | sub (topic : String) : BEvent
  | unsub (topic : String) : BEvent

/-- Dispatch of one stats event. -/
def step (s : BState) : BEvent → BState
  | BEvent.sub t => subscribeToS2Stream s t
  | BEvent.unsub t => unsubscribeFromS2Stream s t

/-- Bridge state after a sequence of stats events. -/
def run (events : List BEvent) : BState :=
  events.foldl step init

/-- Outcome of the single `s2.records.read` call made by the forwarding
body of `subscribeToS2Stream`. -/
inductive ReadOutcome where
  | batches (records : List String) : ReadOutcome
  | abortError : ReadOutcome
  | failure : ReadOutcome
deriving DecidableEq

/-- Observable run of the forwarding body. -/
structure LoopRun where
  readAttempts : ℕ
  forwarded : List String
  backoffMs : ℕ
  exitedSilently : Bool
deriving DecidableEq

/-- Forwarding body of `subscribeToS2Stream` after the controller is
installed: one `s2.records.read` attempt. A delivered stream forwards every
record with a non-empty body, prefixed with the marker byte `J`, then waits
100 ms and returns; an AbortError returns silently; any other read error is
logged, waited out for 1000 ms, and then the function returns — there is no
surrounding loop, so the read is never attempted again. -/
def runForwardBody (outcome : ReadOutcome) : LoopRun :=
  match outcome with
  | ReadOutcome.batches records =>
    { readAttempts := 1
      forwarded := (records.filter (fun r => r ≠ "")).map (fun r => "J" ++ r)
      backoffMs := 100
      exitedSilently := false }
  | ReadOutcome.abortError =>
    { readAttempts := 1, forwarded := [], backoffMs := 0, exitedSilently := true }
  | ReadOutcome.failure =>
    { readAttempts := 1, forwarded := [], backoffMs := 1000, exitedSilently := false }

end Bridge

namespace SocketCodec

/-- JavaScript strings, as lists of UTF-16 units (characters here). -/
abbrev JStr := List Char

/-- JavaScript numbers as they occur in the parser: `none` is NaN. -/
abbrev JNum := Option ℤ

/-- NaN-propagating addition. -/
def jadd (a b : JNum) : JNum :=
  match a, b with
  | some x, some y => some (x + y)
  | _, _ => none

/-- `s.indexOf(pat, start)`: the least position at or after the (clamped)
fromIndex where `pat` occurs entirely inside `s`, and `-1` when there is
none. -/
def jsIndexOf (s pat : JStr) (start : ℤ) : ℤ :=
  match (List.range (s.length + 1)).find?
      (fun i => start.toNat ≤ i && i + pat.length ≤ s.length && pat.isPrefixOf (s.drop i)) with
  | some i => (i : ℤ)
  | none => -1

/-- `s.substring(a, b)`: NaN becomes 0, indices clamp to `[0, length]`, and
the arguments swap when start exceeds end. -/
def jsSubstring (s : JStr) (a b : JNum) : JStr :=
  let clampIx : JNum → ℕ := fun x =>
    match x with
    | none => 0
    | some i => (min (max i 0) (s.length : ℤ)).toNat
  let x := clampIx a
  let y := clampIx b
  (s.drop (min x y)).take (max x y - min x y)

/-- JavaScript whitespace for `trim`. -/
def isJsSpace (c : Char) : Bool :=
  c = ' ' || c = '\r' || c = '\n' || c = '\t'

/-- `s.trim()`. -/
def jsTrim (s : JStr) : JStr :=
  ((s.dropWhile isJsSpace).reverse.dropWhile isJsSpace).reverse

/-- Numeric value of one hex digit, if it is one. -/
def hexDigitVal (c : Char) : Option ℕ :=
  if '0' ≤ c ∧ c ≤ '9' then some (c.toNat - 48)
  else if 'A' ≤ c ∧ c ≤ 'F' then some (c.toNat - 55)
  else if 'a' ≤ c ∧ c ≤ 'f' then some (c.toNat - 87)
  else none

/-- `parseInt(s, 16)`: skip leading whitespace, take the maximal run of hex
digits, NaN when there is none. Sign markers do not occur in frame bodies
and are not modelled. -/
def jsParseIntHex (s : JStr) : JNum :=
  let t := s.dropWhile isJsSpace
  let ds := t.takeWhile (fun c => (hexDigitVal c).isSome)
  if ds = [] then none
  else some ((ds.foldl (fun acc c => acc * 16 + ((hexDigitVal c).getD 0)) 0 : ℕ) : ℤ)

/-- One decoded WebSocket-over-HTTP event. -/
structure WSEvent where
  type : JStr
  content : Option JStr
deriving DecidableEq

/-- Loop body of `parseWebSocketEvents`, with the running offset as a
JavaScript number (`none` is NaN, which fails the `offset < body.length`
test and ends the loop). The fuel argument bounds the iteration count; the
source's `while` has no such bound and can loop forever on adversarial
bodies, but every input considered here finishes within `body.length + 1`
iterations. -/
def parseLoop (body : JStr) : ℕ → JNum → List WSEvent → List WSEvent
  | 0, _, acc => acc
  | _, none, acc => acc
  | fuel + 1, some o, acc =>
    if o < (body.length : ℤ) then
      let eventTypeEnd := jsIndexOf body [' '] o
      let lineEnd := jsIndexOf body ['\r', '\n'] o
      if eventTypeEnd = -1 ∨ (¬ lineEnd = -1 ∧ lineEnd < eventTypeEnd) then
        let eventType := jsTrim (jsSubstring body (some o) (some lineEnd))
        parseLoop body fuel (some (lineEnd + 2))
          (if eventType ≠ [] then acc ++ [⟨eventType, none⟩] else acc)
      else
        let eventType := jsSubstring body (some o) (some eventTypeEnd)
        let afterType := eventTypeEnd + 1
        let contentLengthEnd := jsIndexOf body ['\r', '\n'] afterType
        let contentLengthHex := jsSubstring body (some afterType) (some contentLengthEnd)
        let contentLength := jsParseIntHex contentLengthHex
        let contentStart := contentLengthEnd + 2
        let content := jsSubstring body (some contentStart) (jadd (some contentStart) contentLength)
        parseLoop body fuel (jadd (some contentStart) (jadd contentLength (some 2)))
          (acc ++ [⟨eventType, some content⟩])
    else
      acc

/-- `parseWebSocketEvents`: run the parsing loop from offset 0. -/
def parseWebSocketEvents (body : JStr) : List WSEvent :=
  parseLoop body (body.length + 1) (some 0) []

/-- Uppercase hex digit for a value below 16. -/
def hexDigitChar (d : ℕ) : Char :=
  if d < 10 then Char.ofNat (48 + d) else Char.ofNat (55 + d)

/-- Digit-accumulating loop of `Number.prototype.toString(16)` (uppercased);
the fuel argument only bounds the iteration count. -/
def toHexUpperGo (fuel : ℕ) (n : ℕ) (acc : JStr) : JStr :=
  match fuel with
  | 0 => acc
  | fuel + 1 => if n = 0 then acc else toHexUpperGo fuel (n / 16) (hexDigitChar (n % 16) :: acc)

/-- `n.toString(16).toUpperCase()`. -/
def toHexUpper (n : ℕ) : JStr :=
  if n = 0 then ['0'] else toHexUpperGo n n []

/-- `encodeWebSocketEvent(type, content)`: events without content (including
the falsy empty string) are `⟪type⟫CRLF`; events with content are written
with a hardcoded `TEXT` tag, the uppercase hex `content.length`, and the
content. -/
def encodeWebSocketEvent (type : JStr) (content : Option JStr) : JStr :=
  match content with
  | none => type ++ ['\r', '\n']
  | some c =>
    if c = [] then type ++ ['\r', '\n']
    else
      "TEXT ".toList ++ toHexUpper c.length ++ ['\r', '\n'] ++ c ++ ['\r', '\n']

end SocketCodec

/-- Bridge invariant: counts are never negative, at most one upstream
stream is open per topic, the count is positive exactly when a stream is
open, and `activeSubscriptions` membership tracks the open stream. -/
def Bridge.Inv (s : Bridge.BState) : Prop :=
  ∀ t : String,
    0 ≤ s.counts t ∧ s.openStreams t ≤ 1 ∧
    (0 < s.counts t ↔ s.openStreams t = 1) ∧
    (s.active t = true ↔ s.openStreams t = 1)

theorem Lib0.readVarUintAux_writeVarUintGo :
    ∀ (fuel n : ℕ), n ≤ fuel → ∀ (acc mult : ℕ) (rest : List ℕ),
      Lib0.readVarUintAux acc mult (Lib0.writeVarUintGo fuel n ++ rest) =
        some (acc + n * mult, rest) := by
  intro fuel
  induction fuel with
  | zero =>
    intro n hn acc mult rest
    have h0 : n = 0 := by omega
    subst h0
    simp [Lib0.writeVarUintGo, Lib0.readVarUintAux]
  | succ fuel ih =>
    intro n hn acc mult rest
    by_cases h : 127 < n
    · have hb : ¬ (128 + n % 128 < 128) := by omega
      have hmod : (128 + n % 128) % 128 = n % 128 := by omega
      have hdiv : n / 128 ≤ fuel := by
        have := Nat.div_lt_self (show 0 < n by omega) (show 1 < 128 by omega)
        omega
      rw [Lib0.writeVarUintGo]
      simp only [if_pos h, List.cons_append, Lib0.readVarUintAux, if_neg hb, hmod]
      rw [ih (n / 128) hdiv]
      have key : acc + n % 128 * mult + n / 128 * (mult * 128) = acc + n * mult := by
        have hdm := Nat.div_add_mod n 128
        calc acc + n % 128 * mult + n / 128 * (mult * 128)
            = acc + (128 * (n / 128) + n % 128) * mult := by ring
          _ = acc + n * mult := by rw [hdm]
      rw [key]
    · have hn' : n < 128 := by omega
      rw [Lib0.writeVarUintGo]
      simp [if_neg h, Lib0.readVarUintAux, hn', Nat.mod_eq_of_lt hn']

theorem Lib0.readVarUint_writeVarUint (n : ℕ) (rest : List ℕ) :
    Lib0.readVarUint (Lib0.writeVarUint n ++ rest) = some (n, rest) := by
  have h := Lib0.readVarUintAux_writeVarUintGo n n le_rfl 0 1 rest
  simpa [Lib0.readVarUint, Lib0.writeVarUint] using h

theorem Lib0.writeVarUint_ne_nil (n : ℕ) : Lib0.writeVarUint n ≠ [] := by
  unfold Lib0.writeVarUint
  cases n with
  | zero => simp [Lib0.writeVarUintGo]
  | succ m =>
    rw [Lib0.writeVarUintGo]
    split <;> simp

theorem Lib0.readVarUint8Array_writeVarUint8Array (b rest : List ℕ) :
    Lib0.readVarUint8Array (Lib0.writeVarUint8Array b ++ rest) = some (b, rest) := by
  unfold Lib0.readVarUint8Array Lib0.writeVarUint8Array
  rw [List.append_assoc, Lib0.readVarUint_writeVarUint]
  simp

theorem YModel.toFinset_encodeStateAsUpdate (d : YModel.DocSet) :
    (YModel.encodeStateAsUpdate d).toFinset = d := by
  ext x
  simp only [YModel.encodeStateAsUpdate, List.mem_toFinset, List.mem_filter, List.mem_range,
    decide_eq_true_eq]
  constructor
  · rintro ⟨_, hx⟩
    exact hx
  · intro hx
    exact ⟨Nat.lt_succ_of_le (Finset.le_sup (f := id) hx), hx⟩

theorem YModel.encodeStateAsUpdate_eq_nil_iff (d : YModel.DocSet) :
    YModel.encodeStateAsUpdate d = [] ↔ d = ∅ := by
  constructor
  · intro h
    have h2 := congrArg List.toFinset h
    rw [YModel.toFinset_encodeStateAsUpdate] at h2
    simpa using h2
  · rintro rfl
    decide

theorem YModel.encodeStateVector_eq (d : YModel.DocSet) :
    YModel.encodeStateVector d = YModel.encodeStateAsUpdate d := rfl

theorem YModel.encodeStateVector_inj_iff (d e : YModel.DocSet) :
    YModel.encodeStateVector d = YModel.encodeStateVector e ↔ d = e := by
  constructor
  · intro h
    have h2 := congrArg List.toFinset h
    rw [YModel.encodeStateVector_eq, YModel.encodeStateVector_eq,
      YModel.toFinset_encodeStateAsUpdate, YModel.toFinset_encodeStateAsUpdate] at h2
    exact h2
  · rintro rfl
    rfl

theorem YModel.applyUpdate_empty_encode (d : YModel.DocSet) :
    YModel.applyUpdate ∅ (YModel.encodeStateAsUpdate d) = d := by
  simp [YModel.applyUpdate, YModel.toFinset_encodeStateAsUpdate]

theorem RedisPersistence.loadSet_push (s : RedisPersistence.Store) (u : Blob) :
    RedisPersistence.loadSet { s with updates := s.updates ++ [u] } =
      YModel.applyUpdate (RedisPersistence.loadSet s) u := by
  simp [RedisPersistence.loadSet, List.foldl_append]

theorem RedisPersistence.loadSet_compact (s : RedisPersistence.Store) :
    RedisPersistence.loadSet (RedisPersistence.compact s) = RedisPersistence.loadSet s := by
  simp [RedisPersistence.compact, RedisPersistence.loadSet, YModel.applyUpdate,
    YModel.toFinset_encodeStateAsUpdate]

theorem RedisPersistence.loadSet_storeUpdate (threshold : ℕ) (s : RedisPersistence.Store)
    (u : Blob) :
    RedisPersistence.loadSet (RedisPersistence.storeUpdate threshold s u) =
      YModel.applyUpdate (RedisPersistence.loadSet s) u := by
  unfold RedisPersistence.storeUpdate
  dsimp only
  split
  · rw [RedisPersistence.loadSet_compact, RedisPersistence.loadSet_push]
  · rw [RedisPersistence.loadSet_push]

theorem RedisPersistence.getState_congr (s t : RedisPersistence.Store)
    (h : RedisPersistence.loadSet s = RedisPersistence.loadSet t) :
    RedisPersistence.getState s = RedisPersistence.getState t := by
  simp [RedisPersistence.getState, h]

theorem RedisPersistence.loadSet_foldl (threshold : ℕ) :
    ∀ (us : List Blob) (s : RedisPersistence.Store),
      RedisPersistence.loadSet (us.foldl (RedisPersistence.storeUpdate threshold) s) =
        us.foldl YModel.applyUpdate (RedisPersistence.loadSet s) := by
  intro us
  induction us with
  | nil => intro s; rfl
  | cons u us ih =>
    intro s
    rw [List.foldl_cons, List.foldl_cons, ih, RedisPersistence.loadSet_storeUpdate]

/-- C1: for every room and update sequence, loading after threshold-driven
compaction yields the same state as merging the raw sequence with
compaction never run; `compact` clears the whole pending-update list it
consumed in the same atomic step that installs the snapshot, and running
`compact` never changes the loaded state. -/
theorem compaction_load_equiv :
    (∀ (threshold : ℕ) (us : List Blob),
      RedisPersistence.getState (us.foldl (RedisPersistence.storeUpdate threshold)
          RedisPersistence.empty) =
        RedisPersistence.getState ⟨none, us, 0⟩) ∧
    (∀ s : RedisPersistence.Store, (RedisPersistence.compact s).updates = []) ∧
    (∀ s : RedisPersistence.Store,
      RedisPersistence.getState (RedisPersistence.compact s) = RedisPersistence.getState s) := by
  refine ⟨?_, fun _ => rfl, fun s => RedisPersistence.getState_congr _ _
    (RedisPersistence.loadSet_compact s)⟩
  intro threshold us
  apply RedisPersistence.getState_congr
  rw [RedisPersistence.loadSet_foldl]
  rfl

theorem YjsRedis.loadDocSet_push (s : YjsRedis.RoomState) (u : Blob) :
    YjsRedis.loadDocSet { s with updates := s.updates ++ [u] } =
      YModel.applyUpdate (YjsRedis.loadDocSet s) u := by
  simp [YjsRedis.loadDocSet, List.foldl_append]

theorem YjsRedis.loadDocSet_compactDoc (s : YjsRedis.RoomState) :
    YjsRedis.loadDocSet (YjsRedis.compactDoc s) = YjsRedis.loadDocSet s := by
  simp [YjsRedis.compactDoc, YjsRedis.loadDocSet, YModel.applyUpdate,
    YModel.toFinset_encodeStateAsUpdate]

theorem YjsRedis.loadDocSet_saveUpdate (s : YjsRedis.RoomState) (u : Blob) :
    YjsRedis.loadDocSet (YjsRedis.saveUpdate s u) =
      YModel.applyUpdate (YjsRedis.loadDocSet s) u := by
  unfold YjsRedis.saveUpdate
  dsimp only
  split
  · rw [YjsRedis.loadDocSet_compactDoc, YjsRedis.loadDocSet_push]
  · rw [YjsRedis.loadDocSet_push]

theorem RedisPersistence.storeUpdate_below (s : RedisPersistence.Store) (u : Blob)
    (h : s.updates.length + 1 < 100) :
    RedisPersistence.storeUpdate 100 s u = { s with updates := s.updates ++ [u] } := by
  unfold RedisPersistence.storeUpdate
  dsimp only
  rw [if_neg]
  simp only [List.length_append, List.length_cons, List.length_nil]
  omega

theorem YjsRedis.saveUpdate_below (s : YjsRedis.RoomState) (u : Blob)
    (h : s.updates.length + 1 ≤ 100) :
    YjsRedis.saveUpdate s u = { s with updates := s.updates ++ [u] } := by
  unfold YjsRedis.saveUpdate
  dsimp only
  rw [if_neg]
  simp only [List.length_append, List.length_cons, List.length_nil]
  omega

theorem RedisPersistence.foldl_storeUpdate_below :
    ∀ (us : List Blob) (pre : List Blob), pre.length + us.length < 100 →
      us.foldl (RedisPersistence.storeUpdate 100) ⟨none, pre, 0⟩ = ⟨none, pre ++ us, 0⟩ := by
  intro us
  induction us with
  | nil => intro pre _; simp
  | cons u us ih =>
    intro pre h
    have hh : pre.length + us.length + 1 < 100 := by
      simp only [List.length_cons] at h
      omega
    rw [List.foldl_cons,
      RedisPersistence.storeUpdate_below ⟨none, pre, 0⟩ u (by dsimp only; omega)]
    have h2 := ih (pre ++ [u])
      (by simp only [List.length_append, List.length_cons, List.length_nil]; omega)
    simpa using h2

theorem YjsRedis.foldl_saveUpdate_below :
    ∀ (us : List Blob) (pre : List Blob), pre.length + us.length ≤ 100 →
      us.foldl YjsRedis.saveUpdate ⟨none, pre, 0⟩ = ⟨none, pre ++ us, 0⟩ := by
  intro us
  induction us with
  | nil => intro pre _; simp
  | cons u us ih =>
    intro pre h
    have hh : pre.length + us.length + 1 ≤ 100 := by
      simp only [List.length_cons] at h
      omega
    rw [List.foldl_cons, YjsRedis.saveUpdate_below ⟨none, pre, 0⟩ u (by dsimp only; omega)]
    have h2 := ih (pre ++ [u])
      (by simp only [List.length_append, List.length_cons, List.length_nil]; omega)
    simpa using h2

theorem RedisPersistence.foldl_storeUpdate_at_threshold (us : List Blob)
    (h : us.length = 100) :
    us.foldl (RedisPersistence.storeUpdate 100) RedisPersistence.empty =
      RedisPersistence.compact ⟨none, us, 0⟩ := by
  rcases us.eq_nil_or_concat with rfl | ⟨ys, y, rfl⟩
  · simp at h
  · have hlen : ys.length = 99 := by
      rw [List.length_concat] at h
      omega
    rw [List.concat_eq_append, List.foldl_append, List.foldl_cons, List.foldl_nil]
    have hfold : ys.foldl (RedisPersistence.storeUpdate 100) RedisPersistence.empty =
        ⟨none, ys, 0⟩ := by
      have h2 := RedisPersistence.foldl_storeUpdate_below ys []
        (by simp only [List.length_nil]; omega)
      simpa [RedisPersistence.empty] using h2
    rw [hfold]
    unfold RedisPersistence.storeUpdate
    dsimp only
    rw [if_pos (by simp [hlen])]

theorem YjsRedis.foldl_saveUpdate_over_threshold (us : List Blob)
    (h : us.length = 101) :
    us.foldl YjsRedis.saveUpdate YjsRedis.emptyRoom = YjsRedis.compactDoc ⟨none, us, 0⟩ := by
  rcases us.eq_nil_or_concat with rfl | ⟨ys, y, rfl⟩
  · simp at h
  · have hlen : ys.length = 100 := by
      rw [List.length_concat] at h
      omega
    rw [List.concat_eq_append, List.foldl_append, List.foldl_cons, List.foldl_nil]
    have hfold : ys.foldl YjsRedis.saveUpdate YjsRedis.emptyRoom = ⟨none, ys, 0⟩ := by
      have h2 := YjsRedis.foldl_saveUpdate_below ys []
        (by simp only [List.length_nil]; omega)
      simpa [YjsRedis.emptyRoom] using h2
    rw [hfold]
    unfold YjsRedis.saveUpdate
    dsimp only
    rw [if_pos (by simp [hlen])]

/-- C4 counterexample: appending exactly 100 updates to a fresh room via
`saveUpdate` triggers no compaction at all (the guard is `len > 100`, not
`len >= 100`): all 100 updates are still pending and no snapshot exists,
contradicting the claimed scenario. -/
theorem saveUpdate_threshold_counterexample :
    (List.replicate 100 ([0] : Blob)).foldl YjsRedis.saveUpdate YjsRedis.emptyRoom =
      ⟨none, List.replicate 100 [0], 0⟩ ∧
    ¬ (((List.replicate 100 ([0] : Blob)).foldl YjsRedis.saveUpdate
          YjsRedis.emptyRoom).updates = [] ∧
        ((List.replicate 100 ([0] : Blob)).foldl YjsRedis.saveUpdate
          YjsRedis.emptyRoom).doc.isSome) := by
  have h := YjsRedis.foldl_saveUpdate_below (List.replicate 100 [0]) []
    (by simp only [List.length_nil, List.length_replicate]; omega)
  have h2 : (List.replicate 100 ([0] : Blob)).foldl YjsRedis.saveUpdate YjsRedis.emptyRoom =
      ⟨none, List.replicate 100 [0], 0⟩ := by
    simpa [YjsRedis.emptyRoom] using h
  refine ⟨h2, ?_⟩
  rw [h2]
  simp

/-- C4 (amended): both append paths write the update at the tail of the
room's update list; `storeUpdate` compacts synchronously once the pending
count reaches the threshold, so 100 appends to a fresh room produce exactly
one compaction, an empty update list and a present snapshot; `saveUpdate`
compacts only when the pending count strictly exceeds 100, so 100 appends
leave all updates pending with no snapshot and the 101st append performs
the single compaction. -/
theorem append_compaction_threshold_amended :
    (∀ us : List Blob, us.length = 100 →
      ((us.foldl (RedisPersistence.storeUpdate 100) RedisPersistence.empty).compactions = 1 ∧
        (us.foldl (RedisPersistence.storeUpdate 100) RedisPersistence.empty).updates = [] ∧
        (us.foldl (RedisPersistence.storeUpdate 100)
          RedisPersistence.empty).snapshot.isSome = true)) ∧
    (∀ us : List Blob, us.length = 100 →
      us.foldl YjsRedis.saveUpdate YjsRedis.emptyRoom = ⟨none, us, 0⟩) ∧
    (∀ us : List Blob, us.length = 101 →
      ((us.foldl YjsRedis.saveUpdate YjsRedis.emptyRoom).compactions = 1 ∧
        (us.foldl YjsRedis.saveUpdate YjsRedis.emptyRoom).updates = [] ∧
        (us.foldl YjsRedis.saveUpdate YjsRedis.emptyRoom).doc.isSome = true)) ∧
    (∀ (s : RedisPersistence.Store) (u : Blob), s.updates.length + 1 < 100 →
      (RedisPersistence.storeUpdate 100 s u).updates = s.updates ++ [u]) ∧
    (∀ (s : YjsRedis.RoomState) (u : Blob), s.updates.length + 1 ≤ 100 →
      (YjsRedis.saveUpdate s u).updates = s.updates ++ [u]) := by
  refine ⟨?_, ?_, ?_, ?_, ?_⟩
  · intro us h
    rw [RedisPersistence.foldl_storeUpdate_at_threshold us h]
    simp [RedisPersistence.compact]
  · intro us h
    have h2 := YjsRedis.foldl_saveUpdate_below us []
      (by simp only [List.length_nil]; omega)
    simpa [YjsRedis.emptyRoom] using h2
  · intro us h
    rw [YjsRedis.foldl_saveUpdate_over_threshold us h]
    simp [YjsRedis.compactDoc]
  · intro s u h
    rw [RedisPersistence.storeUpdate_below s u h]
  · intro s u h
    rw [YjsRedis.saveUpdate_below s u h]

/-- C4 witness: concrete instances of the amended claim at 100 and 101
appends of the update `[0]`. -/
theorem append_compaction_threshold_amended_witness :
    ((List.replicate 100 ([0] : Blob)).foldl (RedisPersistence.storeUpdate 100)
      RedisPersistence.empty).compactions = 1 ∧
    (List.replicate 100 ([0] : Blob)).foldl YjsRedis.saveUpdate YjsRedis.emptyRoom =
      ⟨none, List.replicate 100 [0], 0⟩ ∧
    ((List.replicate 101 ([0] : Blob)).foldl YjsRedis.saveUpdate YjsRedis.emptyRoom).updates =
      [] ∧
    (RedisPersistence.storeUpdate 100 RedisPersistence.empty [7]).updates = [[7]] := by
  have hA := append_compaction_threshold_amended.1 (List.replicate 100 ([0] : Blob)) (by simp)
  have hB := append_compaction_threshold_amended.2.1 (List.replicate 100 ([0] : Blob)) (by simp)
  have hC := append_compaction_threshold_amended.2.2.1 (List.replicate 101 ([0] : Blob)) (by simp)
  have hD := append_compaction_threshold_amended.2.2.2.1 RedisPersistence.empty [7]
    (by simp [RedisPersistence.empty])
  exact ⟨hA.1, hB, hC.2.1, by simpa [RedisPersistence.empty] using hD⟩

/-- C3: for every inbound message that decodes to outer tag SYNC and inner
tag SyncStep2 or SyncUpdate, `processMessage` persists the decoded update
payload through `saveUpdate` and asks for exactly the original message
bytes to be broadcast (the same list, never re-encoded), and a subsequent
load of the room reflects the update merged into the room's state. -/
theorem sync_update_persist_then_broadcast
    (room : YjsRedis.RoomState) (doc : YModel.DocSet) (msg : List ℕ)
    (r1 r2 rest : List ℕ) (inner : ℕ) (u : Blob)
    (h0 : Lib0.readVarUint msg = some (YjsRedis.messageSync, r1))
    (h1 : Lib0.readVarUint r1 = some (inner, r2))
    (h2 : inner = YjsRedis.messageSyncStep2 ∨ inner = YjsRedis.messageSyncUpdate)
    (h3 : Lib0.readVarUint8Array r2 = some (u, rest)) :
    YjsRedis.processMessage room msg doc =
      some (YjsRedis.saveUpdate room u, YModel.applyUpdate doc u, ⟨none, some msg, none⟩) ∧
    YjsRedis.loadDocSet (YjsRedis.saveUpdate room u) =
      YjsRedis.loadDocSet room ∪ u.toFinset := by
  constructor
  · unfold YjsRedis.processMessage
    rw [h0]
    have hinner1 : ¬ inner = YjsRedis.messageSyncStep1 := by
      rcases h2 with h2 | h2 <;> rw [h2] <;> decide
    simp only [if_pos rfl, h1, if_neg hinner1, if_pos h2, h3]
    simp
  · rw [YjsRedis.loadDocSet_saveUpdate]
    rfl

/-- C3 witness: the canonical SyncUpdate message carrying the update `[5]`
into a fresh room. -/
theorem sync_update_persist_then_broadcast_witness :
    YjsRedis.processMessage YjsRedis.emptyRoom [0, 2, 1, 5] ∅ =
      some (YjsRedis.saveUpdate YjsRedis.emptyRoom [5], YModel.applyUpdate ∅ [5],
        ⟨none, some [0, 2, 1, 5], none⟩) ∧
    YjsRedis.loadDocSet (YjsRedis.saveUpdate YjsRedis.emptyRoom [5]) =
      YjsRedis.loadDocSet YjsRedis.emptyRoom ∪ ([5] : Blob).toFinset :=
  sync_update_persist_then_broadcast YjsRedis.emptyRoom ∅ [0, 2, 1, 5] [2, 1, 5] [1, 5] []
    2 [5] (by decide) (by decide) (Or.inr rfl) (by decide)

theorem Bridge.inv_init : Bridge.Inv Bridge.init := by
  intro t
  refine ⟨?_, ?_, ?_, ?_⟩ <;> simp [Bridge.init]

theorem Bridge.inv_subscribe (s : Bridge.BState) (h : Bridge.Inv s) (u : String) :
    Bridge.Inv (Bridge.subscribeToS2Stream s u) := by
  intro t
  obtain ⟨h1, h2, h3, h4⟩ := h t
  obtain ⟨hu1, hu2, hu3, hu4⟩ := h u
  unfold Bridge.subscribeToS2Stream
  dsimp only
  by_cases ha : s.active u
  · rw [if_pos ha]
    by_cases ht : t = u
    · subst ht
      have ho : s.openStreams t = 1 := h4.mp ha
      have hc : 0 < s.counts t := h3.mpr ho
      refine ⟨?_, ?_, ?_, ?_⟩ <;> simp_all <;> omega
    · refine ⟨?_, ?_, ?_, ?_⟩ <;> simp [ht, h1, h2, h3, h4]
  · rw [if_neg ha]
    by_cases ht : t = u
    · subst ht
      have ho : s.openStreams t = 0 := by
        by_cases hoo : s.openStreams t = 1
        · exact absurd (h4.mpr hoo) ha
        · omega
      have hc : s.counts t = 0 := by
        by_cases hcc : 0 < s.counts t
        · have := h3.mp hcc
          omega
        · omega
      refine ⟨?_, ?_, ?_, ?_⟩ <;> simp_all
    · refine ⟨?_, ?_, ?_, ?_⟩ <;> simp [ht, h1, h2, h3, h4]

theorem Bridge.inv_unsubscribe (s : Bridge.BState) (h : Bridge.Inv s) (u : String) :
    Bridge.Inv (Bridge.unsubscribeFromS2Stream s u) := by
  obtain ⟨hu1, hu2, hu3, hu4⟩ := h u
  unfold Bridge.unsubscribeFromS2Stream
  dsimp only
  by_cases hz : s.counts u ≤ 0
  · rw [if_pos hz]
    exact h
  · rw [if_neg hz]
    have hpos : 0 < s.counts u := by omega
    have ho : s.openStreams u = 1 := hu3.mp hpos
    have hact : s.active u = true := hu4.mpr ho
    by_cases hn : s.counts u - 1 = 0
    · rw [if_pos hn, if_pos hact]
      intro t
      obtain ⟨h1, h2, h3, h4⟩ := h t
      by_cases ht : t = u
      · subst ht
        refine ⟨?_, ?_, ?_, ?_⟩ <;> simp_all
      · refine ⟨?_, ?_, ?_, ?_⟩ <;> simp [ht, h1, h2, h3, h4]
    · rw [if_neg hn]
      intro t
      obtain ⟨h1, h2, h3, h4⟩ := h t
      by_cases ht : t = u
      · subst ht
        refine ⟨?_, ?_, ?_, ?_⟩ <;> simp_all <;> omega
      · refine ⟨?_, ?_, ?_, ?_⟩ <;> simp [ht, h1, h2, h3, h4]

theorem Bridge.inv_run (evs : List Bridge.BEvent) : Bridge.Inv (Bridge.run evs) := by
  have main : ∀ (l : List Bridge.BEvent) (s : Bridge.BState), Bridge.Inv s →
      Bridge.Inv (l.foldl Bridge.step s) := by
    intro l
    induction l with
    | nil => intro s hs; exact hs
    | cons e l ih =>
      intro s hs
      rw [List.foldl_cons]
      apply ih
      cases e with
      | sub t => exact Bridge.inv_subscribe s hs t
      | unsub t => exact Bridge.inv_unsubscribe s hs t
  exact main evs Bridge.init Bridge.inv_init

/-- C2: after any sequence of subscribe/unsubscribe events, for every
topic the subscriber count is never negative, at most one upstream stream
is open, the count is positive exactly when one upstream stream is open, an
unsubscribe arriving at count 0 only warns and changes nothing, and an
unsubscribe taking the count from 1 to 0 aborts the upstream subscription
(one cancel, zero open streams, count dropped to 0). -/
theorem bridge_refcount_invariants (evs : List Bridge.BEvent) (t : String) :
    0 ≤ (Bridge.run evs).counts t ∧
    (Bridge.run evs).openStreams t ≤ 1 ∧
    (0 < (Bridge.run evs).counts t ↔ (Bridge.run evs).openStreams t = 1) ∧
    ((Bridge.run evs).counts t = 0 →
      Bridge.unsubscribeFromS2Stream (Bridge.run evs) t = Bridge.run evs) ∧
    ((Bridge.run evs).counts t = 1 →
      (Bridge.unsubscribeFromS2Stream (Bridge.run evs) t).openStreams t = 0 ∧
      (Bridge.unsubscribeFromS2Stream (Bridge.run evs) t).counts t = 0 ∧
      (Bridge.unsubscribeFromS2Stream (Bridge.run evs) t).cancels t =
        (Bridge.run evs).cancels t + 1) := by
  have hinv := Bridge.inv_run evs
  obtain ⟨h1, h2, h3, h4⟩ := hinv t
  refine ⟨h1, h2, h3, ?_, ?_⟩
  · intro hc
    unfold Bridge.unsubscribeFromS2Stream
    rw [if_pos (by omega)]
  · intro hc
    have ho : (Bridge.run evs).openStreams t = 1 := h3.mp (by omega)
    have hact : (Bridge.run evs).active t = true := h4.mpr ho
    unfold Bridge.unsubscribeFromS2Stream
    dsimp only
    rw [if_neg (by omega), if_pos (by omega), if_pos hact]
    refine ⟨?_, ?_, ?_⟩ <;> simp [ho]

/-- C2 witness: one subscriber joins topic `a`, giving count 1; the
matching unsubscribe closes the upstream stream and cancels it once. -/
theorem bridge_refcount_invariants_witness :
    (Bridge.run [Bridge.BEvent.sub "a"]).counts "a" = 1 ∧
    (Bridge.unsubscribeFromS2Stream (Bridge.run [Bridge.BEvent.sub "a"]) "a").openStreams
      "a" = 0 ∧
    (Bridge.unsubscribeFromS2Stream (Bridge.run [Bridge.BEvent.sub "a"]) "a").cancels
      "a" = 1 := by
  have hc : (Bridge.run [Bridge.BEvent.sub "a"]).counts "a" = 1 := by decide
  have h := (bridge_refcount_invariants [Bridge.BEvent.sub "a"] "a").2.2.2.2 hc
  refine ⟨hc, h.1, ?_⟩
  rw [h.2.2]
  decide

/-- C5: the forwarding body of `subscribeToS2Stream` makes exactly one read
attempt for every outcome. A non-abort read failure backs off 1000 ms and
then the function returns without any further read — the upstream
subscription is not kept alive by a retry, contradicting the claim (and the
code's own comments); a deliberate cancellation (AbortError) exits silently
with no backoff, as claimed. -/
theorem forward_loop_no_retry_eval :
    (∀ outcome : Bridge.ReadOutcome, (Bridge.runForwardBody outcome).readAttempts = 1) ∧
    Bridge.runForwardBody Bridge.ReadOutcome.failure =
      ⟨1, [], 1000, false⟩ ∧
    Bridge.runForwardBody Bridge.ReadOutcome.abortError =
      ⟨1, [], 0, true⟩ := by
  refine ⟨?_, rfl, rfl⟩
  intro outcome
  cases outcome <;> rfl

/-- C6: `encodeWebSocketEvent` hardcodes the `TEXT` tag whenever content is
present, so encoding a BINARY event with content `x` yields
`TEXT 1CRLFxCRLF` instead of a BINARY-tagged frame; the no-content branch
does use the given tag (`CLOSE` encodes to exactly `CLOSECRLF`), and the
TEXT round trip through `parseWebSocketEvents` holds. -/
theorem encode_event_type_tag_eval :
    SocketCodec.encodeWebSocketEvent "BINARY".toList (some "x".toList) =
      "TEXT 1\r\nx\r\n".toList ∧
    SocketCodec.encodeWebSocketEvent "BINARY".toList (some "x".toList) ≠
      "BINARY 1\r\nx\r\n".toList ∧
    SocketCodec.encodeWebSocketEvent "CLOSE".toList none = "CLOSE\r\n".toList ∧
    SocketCodec.parseWebSocketEvents
        (SocketCodec.encodeWebSocketEvent "TEXT".toList (some "hello".toList)) =
      [⟨"TEXT".toList, some "hello".toList⟩] := by
  refine ⟨by decide, by decide, by decide, by decide⟩

theorem YjsRedis.processMessage_awareness_single (room : YjsRedis.RoomState)
    (doc : YModel.DocSet) (c : ℕ) (tail : List ℕ) :
    YjsRedis.processMessage room
        (Lib0.writeVarUint 1 ++
          Lib0.writeVarUint8Array (Lib0.writeVarUint 1 ++ (Lib0.writeVarUint c ++ tail))) doc =
      some (room, doc,
        ⟨none,
          some (Lib0.writeVarUint 1 ++
            Lib0.writeVarUint8Array (Lib0.writeVarUint 1 ++ (Lib0.writeVarUint c ++ tail))),
          some c⟩) := by
  unfold YjsRedis.processMessage
  rw [Lib0.readVarUint_writeVarUint]
  have harr : Lib0.readVarUint8Array
      (Lib0.writeVarUint8Array (Lib0.writeVarUint 1 ++ (Lib0.writeVarUint c ++ tail))) =
      some (Lib0.writeVarUint 1 ++ (Lib0.writeVarUint c ++ tail), []) := by
    have h := Lib0.readVarUint8Array_writeVarUint8Array
      (Lib0.writeVarUint 1 ++ (Lib0.writeVarUint c ++ tail)) []
    simpa using h
  simp only [YjsRedis.messageSync, YjsRedis.messageAwareness, harr,
    Lib0.readVarUint_writeVarUint]
  simp

/-- C8 (amended): the departure broadcast on CLOSE is emitted if and only
if the attributed collaboration-client id is nonzero — JavaScript
truthiness drops the broadcast for an attributed id of 0, not only for a
connection that was never attributed; when emitted, the message is
`encodeAwarenessUserDisconnected id 0`, which the relay's own
`processMessage` reads back as an awareness message declaring exactly one
change attributed to that client id. -/
theorem close_departure_amended (stored : Option ℕ) (room : YjsRedis.RoomState)
    (doc : YModel.DocSet) (c : ℕ) :
    ((YjsRoute.closeBroadcast stored).isSome = true ↔
      ∃ n, stored = some n ∧ n ≠ 0) ∧
    YjsRoute.closeBroadcast none = none ∧
    YjsRoute.closeBroadcast (some (c + 1)) =
      some (YjsRedis.encodeAwarenessUserDisconnected (c + 1) 0) ∧
    YjsRedis.processMessage room (YjsRedis.encodeAwarenessUserDisconnected (c + 1) 0) doc =
      some (room, doc,
        ⟨none, some (YjsRedis.encodeAwarenessUserDisconnected (c + 1) 0), some (c + 1)⟩) := by
  refine ⟨?_, rfl, ?_, ?_⟩
  · cases stored with
    | none => simp [YjsRoute.closeBroadcast, YjsRoute.truthyId]
    | some n =>
      by_cases hn : n = 0
      · subst hn
        simp [YjsRoute.closeBroadcast, YjsRoute.truthyId]
      · simp [YjsRoute.closeBroadcast, YjsRoute.truthyId, hn]
  · simp [YjsRoute.closeBroadcast, YjsRoute.truthyId]
  · have hshape : YjsRedis.encodeAwarenessUserDisconnected (c + 1) 0 =
        Lib0.writeVarUint 1 ++
          Lib0.writeVarUint8Array (Lib0.writeVarUint 1 ++
            (Lib0.writeVarUint (c + 1) ++
              (Lib0.writeVarUint 1 ++ Lib0.writeVarString YjsRedis.nullJsonBytes))) := by
      simp [YjsRedis.encodeAwarenessUserDisconnected, YjsRedis.messageAwareness,
        List.append_assoc]
    rw [hshape]
    exact YjsRedis.processMessage_awareness_single room doc (c + 1) _

/-- C8 counterexample: a client id of 0 is attributed by `processMessage`
(the payload declares exactly one change for client 0), yet CLOSE emits no
departure broadcast for it, because `if (connData.awarenessClientId)` is
false for 0 — the claimed "if and only if attributed" fails. -/
theorem awareness_zero_id_counterexample :
    YjsRedis.processMessage YjsRedis.emptyRoom [1, 3, 1, 0, 1] ∅ =
      some (YjsRedis.emptyRoom, ∅, ⟨none, some [1, 3, 1, 0, 1], some 0⟩) ∧
    YjsRoute.closeBroadcast (some 0) = none := by
  refine ⟨by decide, by decide⟩

theorem RedisPersistence.getState_eq_none_iff (s : RedisPersistence.Store) :
    RedisPersistence.getState s = none ↔ RedisPersistence.loadSet s = ∅ := by
  unfold RedisPersistence.getState
  split
  · simp_all
  · simp_all

theorem RedisPersistence.getState_some_shape (s : RedisPersistence.Store) (st : Blob)
    (h : RedisPersistence.getState s = some st) : st ≠ [] := by
  unfold RedisPersistence.getState at h
  split at h
  · exact absurd h (by simp)
  · intro hnil
    rw [Option.some_inj] at h
    rw [← h] at hnil
    rw [YModel.encodeStateAsUpdate_eq_nil_iff] at hnil
    simp_all

/-- C7 counterexample: on OPEN with a non-empty persisted document, the
Y.Doc-based handler's SyncStep1 carries the loaded doc's state vector
(`[0, 0, 1, 1]` for the doc holding atom 1), not the empty state vector. -/
theorem docHandler_step1_vector_counterexample :
    (DocHandler.openActions (some ({1} : Finset ℕ)) "r").take 3 ≠
      [WsAction.accept, WsAction.subscribe "yjs:r",
        WsAction.sendBinary (PeerHandler.encodeSyncStep1 PeerHandler.emptyStateVector)] ∧
    (DocHandler.openActions (some ({1} : Finset ℕ)) "r").take 3 =
      [WsAction.accept, WsAction.subscribe "yjs:r", WsAction.sendBinary [0, 0, 1, 1]] := by
  refine ⟨by decide, by decide⟩

/-- C7 (amended): on OPEN both handlers subscribe the connection to the
room's channel and then send SyncStep1; the peer-based handler always uses
the empty state vector and follows with SyncStep2 exactly when the
persistence provider returns a state, while the Y.Doc-based handler sends
the loaded doc's state vector — which equals the empty vector only when the
loaded doc is empty — and follows with SyncStep2 exactly when the loaded
doc is non-empty. -/
theorem open_transition_amended (s : RedisPersistence.Store) (q : YModel.DocSet)
    (name : String) :
    PeerHandler.openActions none name =
      [WsAction.accept, WsAction.subscribe ("yjs:" ++ name),
        WsAction.sendBinary (PeerHandler.encodeSyncStep1 PeerHandler.emptyStateVector)] ∧
    (PeerHandler.openActions (some s) name).take 3 =
      [WsAction.accept, WsAction.subscribe ("yjs:" ++ name),
        WsAction.sendBinary (PeerHandler.encodeSyncStep1 PeerHandler.emptyStateVector)] ∧
    (PeerHandler.openActions (some s) name).drop 3 =
      ((RedisPersistence.getState s).map
        (fun st => WsAction.sendBinary (PeerHandler.encodeSyncStep2 st))).toList ∧
    (DocHandler.openActions (some q) name).take 3 =
      [WsAction.accept, WsAction.subscribe ("yjs:" ++ name),
        WsAction.sendBinary
          (Lib0.writeVarUint YjsRedis.messageSync ++ Lib0.writeVarUint YjsRedis.messageSyncStep1 ++
            Lib0.writeVarUint8Array (YModel.encodeStateVector q))] ∧
    (YModel.encodeStateVector q = PeerHandler.emptyStateVector ↔ q = ∅) ∧
    (DocHandler.openActions (some q) name).drop 3 =
      (if q = ∅ then []
       else
        [WsAction.sendBinary
          (Lib0.writeVarUint YjsRedis.messageSync ++ Lib0.writeVarUint YjsRedis.messageSyncStep2 ++
            Lib0.writeVarUint8Array (YModel.encodeStateAsUpdate q))]) := by
  refine ⟨by simp [PeerHandler.openActions], ?_, ?_, ?_, ?_, ?_⟩
  · simp [PeerHandler.openActions]
  · rcases hgs : RedisPersistence.getState s with _ | st
    · simp [PeerHandler.openActions, hgs]
    · have hpos : 0 < st.length :=
        List.length_pos.mpr (RedisPersistence.getState_some_shape s st hgs)
      simp [PeerHandler.openActions, hgs, hpos]
  · simp [DocHandler.openActions, DocHandler.boundDoc]
  · rw [show PeerHandler.emptyStateVector = YModel.encodeStateVector ∅ from rfl]
    exact YModel.encodeStateVector_inj_iff q ∅
  · by_cases hq : q = ∅
    · subst hq
      simp [DocHandler.openActions, DocHandler.boundDoc]
    · simp [DocHandler.openActions, DocHandler.boundDoc, hq]

/-- C10 counterexample: the Y.Doc-based handler, with persistence
configured but no persisted content, answers SyncStep1 with an empty-bodied
SyncStep2 (`[0, 1, 0]`) instead of staying silent — its `length > 1` guard
can never fail. -/
theorem docHandler_empty_step2_counterexample :
    DocHandler.step1Actions (some (∅ : Finset ℕ)) (YModel.encodeStateVector ∅) =
      [WsAction.sendBinary [0, 1, 0]] ∧
    ¬ DocHandler.step1Actions (some (∅ : Finset ℕ)) (YModel.encodeStateVector ∅) = [] := by
  refine ⟨by decide, by decide⟩

/-- C10 (amended): on SyncStep1 the peer-based handler sends no SyncStep2
exactly when the persistence provider is absent or returns no state (which
happens exactly when the merged room state is empty); the Y.Doc-based
handler instead always sends one SyncStep2 response, of at least 3 bytes,
because its `response.length > 1` guard is always satisfied — even when the
persisted state is absent or the computed diff is empty. -/
theorem step1_empty_state_amended (s : RedisPersistence.Store) (q : YModel.DocSet)
    (sv : Blob) :
    PeerHandler.step1Actions none = [] ∧
    (PeerHandler.step1Actions (some s) = [] ↔ RedisPersistence.getState s = none) ∧
    (RedisPersistence.getState s = none ↔ RedisPersistence.loadSet s = ∅) ∧
    (∃ m, DocHandler.step1Actions (some q) sv = [WsAction.sendBinary m] ∧ 3 ≤ m.length) := by
  refine ⟨rfl, ?_, RedisPersistence.getState_eq_none_iff s, ?_⟩
  · rcases hgs : RedisPersistence.getState s with _ | st
    · simp [PeerHandler.step1Actions, hgs]
    · have hpos : 0 < st.length :=
        List.length_pos.mpr (RedisPersistence.getState_some_shape s st hgs)
      simp [PeerHandler.step1Actions, hgs, hpos]
  · have hlen : 3 ≤ (Lib0.writeVarUint YjsRedis.messageSync ++
        Lib0.writeVarUint YjsRedis.messageSyncStep2 ++
        Lib0.writeVarUint8Array
          (YModel.encodeStateDiff (DocHandler.boundDoc (some q)) sv)).length := by
      have h0 : (Lib0.writeVarUint YjsRedis.messageSync).length = 1 := by decide
      have h1 : (Lib0.writeVarUint YjsRedis.messageSyncStep2).length = 1 := by decide
      have h2 : 0 < (Lib0.writeVarUint
          (YModel.encodeStateDiff (DocHandler.boundDoc (some q)) sv).length).length :=
        List.length_pos.mpr (Lib0.writeVarUint_ne_nil _)
      simp only [List.length_append, Lib0.writeVarUint8Array, h0, h1]
      omega
    refine ⟨_, ?_, hlen⟩
    unfold DocHandler.step1Actions
    dsimp only
    rw [if_pos (by omega)]

theorem SocketCodec.parseLoop_acc (body : SocketCodec.JStr) :
    ∀ (fuel : ℕ) (off : SocketCodec.JNum) (acc : List SocketCodec.WSEvent),
      SocketCodec.parseLoop body fuel off acc =
        acc ++ SocketCodec.parseLoop body fuel off [] := by
  intro fuel
  induction fuel with
  | zero =>
    intro off acc
    cases off <;> simp [SocketCodec.parseLoop]
  | succ fuel ih =>
    intro off acc
    cases off with
    | none => simp [SocketCodec.parseLoop]
    | some o =>
      by_cases hlt : o < (body.length : ℤ)
      · rw [SocketCodec.parseLoop, SocketCodec.parseLoop]
        simp only [if_pos hlt]
        split
        · split
          · rw [ih _ (acc ++ [_])]
            conv_rhs => rw [ih]
            simp
          · exact ih _ acc
        · rw [ih _ (acc ++ [_])]
          conv_rhs => rw [ih]
          simp
      · simp [SocketCodec.parseLoop, hlt]

/-- C9 counterexample: the body carries three events — a PING, a TEXT with
a malformed hex length `ZZ`, and another PING. The decoder preserves the
leading PING, but the malformed event itself does not fail: it is emitted
with garbage content (the body's first 15 characters, via `substring` with
a NaN bound), and the trailing PING is dropped because the NaN offset ends
the loop — so more than the single malformed event is lost. -/
theorem malformed_length_counterexample :
    SocketCodec.parseWebSocketEvents "PING\r\nTEXT ZZ\r\nhi\r\nPING\r\n".toList =
      [⟨"PING".toList, none⟩, ⟨"TEXT".toList, some "PING\r\nTEXT ZZ\r\n".toList⟩] ∧
    (SocketCodec.parseWebSocketEvents "PING\r\nTEXT ZZ\r\nhi\r\nPING\r\n".toList).length =
      2 ∧
    ¬ SocketCodec.WSEvent.mk "PING".toList none ∈
        (SocketCodec.parseWebSocketEvents "PING\r\nTEXT ZZ\r\nhi\r\nPING\r\n".toList).drop
          1 := by
  refine ⟨by decide, by decide, by decide⟩

/-- C9 (amended): decoding never aborts already-decoded events — whatever
the parsing loop does next, the events accumulated so far are returned as a
prefix of the result, and no exception is raised (the decoder is total).
However, a malformed length field does not fail only the single event being
parsed: that event is emitted with garbage content (a prefix of the whole
body, from `substring` applied to a NaN bound) and every event after it in
the body is dropped, because the NaN offset terminates the loop, as the
concrete malformed body shows. -/
theorem malformed_length_amended :
    (∀ (body : SocketCodec.JStr) (fuel : ℕ) (off : SocketCodec.JNum)
        (acc : List SocketCodec.WSEvent),
      SocketCodec.parseLoop body fuel off acc =
        acc ++ SocketCodec.parseLoop body fuel off []) ∧
    SocketCodec.parseWebSocketEvents "PING\r\nTEXT ZZ\r\nhi\r\nPING\r\n".toList =
      [⟨"PING".toList, none⟩, ⟨"TEXT".toList, some "PING\r\nTEXT ZZ\r\n".toList⟩] := by
  refine ⟨SocketCodec.parseLoop_acc, by decide⟩
